import Mathlib

/-!
# Verification of the smokering cook-plan engine

Shallow embedding of `src/apps/api/src/services/cookPlanner.ts` and the
constants it consumes from `src/packages/shared/src/constants/index.ts`.

JavaScript numbers are embedded as rationals (`ℚ`), `Date` values as integer
milliseconds since the epoch (`ℤ`), and `Math.round` as `jsRound q = ⌊q + 1/2⌋`
(round half toward positive infinity, which is what `Math.round` does).
-/

namespace Smokering

/-! ## Enums (src/packages/shared/src/types/index.ts) -/

inductive MeatCut
  | BRISKET
  | PORK_SHOULDER
  | SPARE_RIBS
  | BABY_BACK_RIBS
  | BEEF_RIBS
  deriving DecidableEq, BEq, Repr

inductive SmokerType
  | PELLET
  | OFFSET
  | KAMADO
  | ELECTRIC
  | KETTLE
  deriving DecidableEq, BEq, Repr

inductive WrapMethod
  | NONE
  | BUTCHER_PAPER
  | FOIL
  deriving DecidableEq, BEq, Repr

inductive Confidence
  | HIGH
  | MEDIUM
  | LOW
  deriving DecidableEq, BEq, Repr

/-- A `{min, max}` duration range holding integers (minutes), as produced by
`Math.round` or by the integer-valued constant tables. -/
structure RangeZ where
  min : ℤ
  max : ℤ
  deriving DecidableEq, BEq, Repr

/-- A `{min, max}` range holding raw JS numbers (embedded as rationals). -/
structure RangeQ where
  min : ℚ
  max : ℚ
  deriving DecidableEq, BEq, Repr

/-! ## Constants (src/packages/shared/src/constants/index.ts) -/

/-- One row of `BASE_COOK_TIMES`: `{ min, max, perPound }`. -/
structure BaseTime where
  min : ℚ
  max : ℚ
  perPound : Bool
  deriving DecidableEq, Repr

/-- `BASE_COOK_TIMES`: base cook times in minutes (per pound where `perPound`). -/
def BASE_COOK_TIMES : MeatCut → BaseTime
  | .BRISKET => ⟨60, 90, true⟩
  | .PORK_SHOULDER => ⟨90, 120, true⟩
  | .SPARE_RIBS => ⟨300, 360, false⟩
  | .BABY_BACK_RIBS => ⟨240, 300, false⟩
  | .BEEF_RIBS => ⟨360, 480, false⟩

/-- One row of `SMOKER_MULTIPLIERS`. -/
structure SmokerFactor where
  multiplier : ℚ
  varianceMultiplier : ℚ
  deriving DecidableEq, Repr

/-- `SMOKER_MULTIPLIERS`. -/
def SMOKER_MULTIPLIERS : SmokerType → SmokerFactor
  | .PELLET => ⟨0.90, 0.8⟩
  | .OFFSET => ⟨1.15, 1.3⟩
  | .KAMADO => ⟨0.95, 0.85⟩
  | .ELECTRIC => ⟨1.0, 1.0⟩
  | .KETTLE => ⟨1.10, 1.2⟩

/-- `STALL_CONFIG` (one object in the source; its fields become projections). -/
structure StallConfig where
  startTempF : ℚ
  endTempF : ℚ
  durationMinutes : RangeQ
  wrapReductionFactor : ℚ
  affectedCuts : List MeatCut

def STALL_CONFIG : StallConfig :=
  { startTempF := 150
    endTempF := 170
    durationMinutes := ⟨60, 240⟩
    wrapReductionFactor := 0.5
    affectedCuts := [MeatCut.BRISKET, MeatCut.PORK_SHOULDER] }

structure EnvThresholds where
  coldAmbient : ℚ
  hotAmbient : ℚ
  highAltitude : ℚ

def ENVIRONMENTAL_THRESHOLDS : EnvThresholds :=
  { coldAmbient := 40, hotAmbient := 90, highAltitude := 5000 }

structure EnvMultipliers where
  coldAmbient : ℚ
  hotAmbient : ℚ
  highAltitude : ℚ

def ENVIRONMENTAL_MULTIPLIERS : EnvMultipliers :=
  { coldAmbient := 1.12, hotAmbient := 0.92, highAltitude := 1.10 }

namespace PHASE_NAMES

def PREP : String := "Prep & Trim"

def PREHEAT : String := "Preheat Smoker"

def SMOKE_1 : String := "Smoke Phase 1"

def STALL : String := "Stall Window"

def WRAP_DECISION : String := "Wrap Decision"

def SMOKE_2 : String := "Smoke Phase 2"

def REST : String := "Rest"

def SERVE : String := "Serve Window"

end PHASE_NAMES

/-- `PHASE_CONFIDENCE`: the record keyed by phase name.  Prep, Preheat, Rest
and Serve map to HIGH; the two smoke phases and the wrap decision to MEDIUM;
the stall window to LOW.  Names outside the record never occur in the
planner; the catch-all arm returns HIGH (the value of the four high rows). -/
def PHASE_CONFIDENCE (name : String) : Confidence :=
  if name = PHASE_NAMES.SMOKE_1 then .MEDIUM
  else if name = PHASE_NAMES.STALL then .LOW
  else if name = PHASE_NAMES.WRAP_DECISION then .MEDIUM
  else if name = PHASE_NAMES.SMOKE_2 then .MEDIUM
  else .HIGH

def PREP_TIME_MINUTES : RangeZ := ⟨30, 45⟩

def PREHEAT_TIME_MINUTES : RangeZ := ⟨15, 30⟩

def REST_TIME_MINUTES : MeatCut → RangeZ
  | .BRISKET => ⟨60, 120⟩
  | .PORK_SHOULDER => ⟨45, 90⟩
  | .SPARE_RIBS => ⟨10, 20⟩
  | .BABY_BACK_RIBS => ⟨10, 15⟩
  | .BEEF_RIBS => ⟨30, 60⟩

/-! ## Data model (src/packages/shared/src/types/index.ts) -/

/-- `CookPlanInput`.  `serveTime` is a `Date`, embedded as epoch milliseconds. -/
structure CookPlanInput where
  meatCut : MeatCut
  weightLbs : ℚ
  smokerType : SmokerType
  smokerTempF : ℚ
  wrapMethod : WrapMethod
  serveTime : ℤ
  ambientTempF : Option ℚ
  altitude : Option ℚ
  deriving DecidableEq, Repr

/-- `PhaseDefinition`.  `order` is written by `generateCookPlan` after
assembly (`phase.order = index`); while a phase is being built it is absent,
embedded here as the default `0`. -/
structure PhaseDefinition where
  name : String
  startTime : ℤ
  endTime : ℤ
  durationRange : RangeZ
  confidence : Confidence
  notes : String
  order : ℕ := 0
  deriving DecidableEq, Repr

/-- The `{earliest, latest}` confidence range of a plan (epoch milliseconds). -/
structure ConfRange where
  earliest : ℤ
  latest : ℤ
  deriving DecidableEq, Repr

/-- `CookPlan`. -/
structure CookPlan where
  phases : List PhaseDefinition
  predictedFinishTime : ℤ
  confidenceRange : ConfRange
  overallConfidence : ℤ
  recommendedStartTime : ℤ
  deriving DecidableEq, Repr

/-- Status literal of `updatePrediction`: `'ahead' | 'on_track' | 'behind'`. -/
inductive PredictionStatus
  | AHEAD
  | ON_TRACK
  | BEHIND
  deriving DecidableEq, Repr

/-- Return type of `updatePrediction`. -/
structure PredictionUpdate where
  updatedFinishTime : ℤ
  adjustedConfidence : ℤ
  status : PredictionStatus
  deriving DecidableEq, Repr

/-! ## The planner (src/apps/api/src/services/cookPlanner.ts) -/

/-- JavaScript `Math.round`: round half toward positive infinity. -/
def jsRound (q : ℚ) : ℤ := ⌊q + 1 / 2⌋

/-- `getEnvironmentalMultiplier`: starts at 1.0; cold or hot ambient scales it
(cold and hot are exclusive branches of one if/else-if), then high altitude
scales it. -/
def getEnvironmentalMultiplier (ambientTempF altitude : Option ℚ) : ℚ :=
  let m1 : ℚ :=
    match ambientTempF with
    | some a =>
        if a < ENVIRONMENTAL_THRESHOLDS.coldAmbient then
          ENVIRONMENTAL_MULTIPLIERS.coldAmbient
        else if a > ENVIRONMENTAL_THRESHOLDS.hotAmbient then
          ENVIRONMENTAL_MULTIPLIERS.hotAmbient
        else 1
    | none => 1
  let m2 : ℚ :=
    match altitude with
    | some alt =>
        if alt > ENVIRONMENTAL_THRESHOLDS.highAltitude then
          ENVIRONMENTAL_MULTIPLIERS.highAltitude
        else 1
    | none => 1
  m1 * m2

/-- `hasStall`: membership of the cut in `STALL_CONFIG.affectedCuts`. -/
def hasStall (meatCut : MeatCut) : Bool :=
  STALL_CONFIG.affectedCuts.contains meatCut

/-- `calculateBaseCookTime`.  The source also receives `wrapMethod` but does
not read it; the embedding keeps the parameter. -/
def calculateBaseCookTime (meatCut : MeatCut) (weightLbs : ℚ)
    (smokerType : SmokerType) (_wrapMethod : WrapMethod)
    (ambientTempF altitude : Option ℚ) : RangeZ :=
  let baseTime := BASE_COOK_TIMES meatCut
  let smokerFactor := SMOKER_MULTIPLIERS smokerType
  let envMultiplier := getEnvironmentalMultiplier ambientTempF altitude
  let minTime0 : ℚ := if baseTime.perPound then baseTime.min * weightLbs else baseTime.min
  let maxTime0 : ℚ := if baseTime.perPound then baseTime.max * weightLbs else baseTime.max
  let minTime1 := minTime0 * smokerFactor.multiplier
  let maxTime1 := maxTime0 * smokerFactor.multiplier
  let variance := maxTime1 - minTime1
  let adjustedVariance := variance * smokerFactor.varianceMultiplier
  let midpoint := (minTime1 + maxTime1) / 2
  let minTime2 := midpoint - adjustedVariance / 2
  let maxTime2 := midpoint + adjustedVariance / 2
  let minTime3 := minTime2 * envMultiplier
  let maxTime3 := maxTime2 * envMultiplier
  ⟨jsRound minTime3, jsRound maxTime3⟩

/-- `calculateStallDuration`: `null` (here `none`) for cuts without a stall;
otherwise the configured range, shrunk by `wrapReductionFactor` when a wrap
method other than NONE is selected, each bound rounded. -/
def calculateStallDuration (meatCut : MeatCut) (wrapMethod : WrapMethod) :
    Option RangeZ :=
  if !hasStall meatCut then none
  else
    let r := STALL_CONFIG.durationMinutes
    let r' : RangeQ :=
      if wrapMethod ≠ WrapMethod.NONE then
        ⟨r.min * STALL_CONFIG.wrapReductionFactor,
         r.max * STALL_CONFIG.wrapReductionFactor⟩
      else r
    some ⟨jsRound r'.min, jsRound r'.max⟩

/-- `calculateOverallConfidence`: 100 minus `(varianceMultiplier - 1) * 50`,
minus 10 per LOW-confidence phase and 5 per MEDIUM-confidence phase, rounded
and clamped to `[20, 100]` (`Math.max(20, Math.min(100, Math.round(...)))`). -/
def calculateOverallConfidence (phases : List PhaseDefinition)
    (smokerType : SmokerType) : ℤ :=
  let smokerFactor := SMOKER_MULTIPLIERS smokerType
  let baseConfidence0 : ℚ := 100 - (smokerFactor.varianceMultiplier - 1) * 50
  let lowConfidenceCount := (phases.filter fun p => p.confidence == Confidence.LOW).length
  let baseConfidence1 := baseConfidence0 - lowConfidenceCount * 10
  let mediumConfidenceCount := (phases.filter fun p => p.confidence == Confidence.MEDIUM).length
  let baseConfidence2 := baseConfidence1 - mediumConfidenceCount * 5
  max 20 (min 100 (jsRound baseConfidence2))

/-- The label `wrapMethod.toLowerCase().replace('_', ' ')` used in the
Smoke Phase 2 note. -/
def wrapMethodLabel : WrapMethod → String
  | .NONE => "none"
  | .BUTCHER_PAPER => "butcher paper"
  | .FOIL => "foil"

/-- The trailing `phases.forEach((phase, index) => phase.order = index)`:
write the (0-based) position of each phase into its `order` field. -/
def assignOrders : ℕ → List PhaseDefinition → List PhaseDefinition
  | _, [] => []
  | i, p :: rest => { p with order := i } :: assignOrders (i + 1) rest

/-- `generateCookPlan`.  Phases are assembled back-to-front with `unshift`;
the embedding builds the same list with prepends/concatenations, keeping the
source's order of construction and all of its intermediate values. -/
def generateCookPlan (input : CookPlanInput) : CookPlan :=
  let cookTimeRange := calculateBaseCookTime input.meatCut input.weightLbs
    input.smokerType input.wrapMethod input.ambientTempF input.altitude
  let stallDuration := calculateStallDuration input.meatCut input.wrapMethod
  let restTime := REST_TIME_MINUTES input.meatCut
  -- Serve Window bounds (serveWindowEnd is computed in the source but unused)
  let serveWindowStart := input.serveTime - 30 * 60000
  -- Phase: Rest
  let restEnd := serveWindowStart
  let restStart := restEnd - restTime.max * 60000
  let restPhase : PhaseDefinition :=
    { name := PHASE_NAMES.REST
      startTime := restStart
      endTime := restEnd
      durationRange := restTime
      confidence := PHASE_CONFIDENCE PHASE_NAMES.REST
      notes := "Rest for " ++ toString restTime.min ++ "-" ++ toString restTime.max
        ++ " minutes minimum" }
  let predictedFinishTime := restStart
  let hasPrimaryStall := hasStall input.meatCut
  let smoke2End := restStart
  let durPair : RangeZ × RangeZ :=
    if hasPrimaryStall && stallDuration.isSome then
      (⟨jsRound ((cookTimeRange.min : ℚ) * 0.4), jsRound ((cookTimeRange.max : ℚ) * 0.4)⟩,
       ⟨jsRound ((cookTimeRange.min : ℚ) * 0.3), jsRound ((cookTimeRange.max : ℚ) * 0.3)⟩)
    else
      (cookTimeRange, ⟨0, 0⟩)
  let smoke1Duration := durPair.1
  let smoke2Duration := durPair.2
  let middlePhases : List PhaseDefinition :=
    if 0 < smoke2Duration.min then
      let smoke2Start := smoke2End - smoke2Duration.max * 60000
      let smoke2Phase : PhaseDefinition :=
        { name := PHASE_NAMES.SMOKE_2
          startTime := smoke2Start
          endTime := smoke2End
          durationRange := smoke2Duration
          confidence := PHASE_CONFIDENCE PHASE_NAMES.SMOKE_2
          notes :=
            if input.wrapMethod ≠ WrapMethod.NONE then
              "Wrapped in " ++ wrapMethodLabel input.wrapMethod
            else "Unwrapped cook continues" }
      let wrapPhases : List PhaseDefinition :=
        if input.wrapMethod ≠ WrapMethod.NONE then
          [{ name := PHASE_NAMES.WRAP_DECISION
             startTime := smoke2Start
             endTime := smoke2Start
             durationRange := ⟨0, 0⟩
             confidence := PHASE_CONFIDENCE PHASE_NAMES.WRAP_DECISION
             notes := "Wrap when internal temp reaches "
               ++ toString STALL_CONFIG.startTempF ++ "-"
               ++ toString STALL_CONFIG.endTempF ++ "°F" }]
        else []
      let stallPhases : List PhaseDefinition :=
        match stallDuration with
        | some sd =>
            let stallEnd := smoke2Start
            let stallStart := stallEnd - sd.max * 60000
            [{ name := PHASE_NAMES.STALL
               startTime := stallStart
               endTime := stallEnd
               durationRange := sd
               confidence := PHASE_CONFIDENCE PHASE_NAMES.STALL
               notes := "High variance - internal temp plateaus at "
                 ++ toString STALL_CONFIG.startTempF ++ "-"
                 ++ toString STALL_CONFIG.endTempF ++ "°F" }]
        | none => []
      stallPhases ++ wrapPhases ++ [smoke2Phase]
    else []
  let phases1 := middlePhases ++ [restPhase]
  -- Phase: Smoke Phase 1 (`phases[0]?.startTime || smoke2End`; the list holds
  -- at least the Rest phase and a Date is always truthy, so this is the head)
  let smoke1End :=
    match phases1.head? with
    | some p => p.startTime
    | none => smoke2End
  let smoke1Start := smoke1End - smoke1Duration.max * 60000
  let smoke1Phase : PhaseDefinition :=
    { name := PHASE_NAMES.SMOKE_1
      startTime := smoke1Start
      endTime := smoke1End
      durationRange := smoke1Duration
      confidence := PHASE_CONFIDENCE PHASE_NAMES.SMOKE_1
      notes := "Smoke at " ++ toString input.smokerTempF ++ "°F" }
  -- Phase: Preheat Smoker
  let preheatEnd := smoke1Start
  let preheatStart := preheatEnd - PREHEAT_TIME_MINUTES.max * 60000
  let preheatPhase : PhaseDefinition :=
    { name := PHASE_NAMES.PREHEAT
      startTime := preheatStart
      endTime := preheatEnd
      durationRange := PREHEAT_TIME_MINUTES
      confidence := PHASE_CONFIDENCE PHASE_NAMES.PREHEAT
      notes := "Preheat smoker to " ++ toString input.smokerTempF ++ "°F" }
  -- Phase: Prep & Trim
  let prepEnd := preheatStart
  let prepStart := prepEnd - PREP_TIME_MINUTES.max * 60000
  let prepPhase : PhaseDefinition :=
    { name := PHASE_NAMES.PREP
      startTime := prepStart
      endTime := prepEnd
      durationRange := PREP_TIME_MINUTES
      confidence := PHASE_CONFIDENCE PHASE_NAMES.PREP
      notes := "Trim fat, apply rub, bring to room temperature" }
  let phases := prepPhase :: preheatPhase :: smoke1Phase :: phases1
  let totalVarianceMinutes : ℤ :=
    (cookTimeRange.max - cookTimeRange.min) +
      (match stallDuration with
       | some sd => sd.max - sd.min
       | none => 0)
  let confidenceRange : ConfRange :=
    { earliest := predictedFinishTime - totalVarianceMinutes * 30000
      latest := predictedFinishTime + totalVarianceMinutes * 30000 }
  let overallConfidence := calculateOverallConfidence phases input.smokerType
  { phases := assignOrders 0 phases
    predictedFinishTime := predictedFinishTime
    confidenceRange := confidenceRange
    overallConfidence := overallConfidence
    recommendedStartTime := prepStart }

/-- `updatePrediction`. -/
def updatePrediction (originalPlan : CookPlan) (currentTempF : ℚ)
    (elapsedMinutes : ℚ) (targetTempF : ℚ) : PredictionUpdate :=
  let totalExpectedMinutes : ℚ :=
    ((originalPlan.confidenceRange.latest - originalPlan.recommendedStartTime : ℤ) : ℚ)
      / 60000
  let expectedProgress := elapsedMinutes / totalExpectedMinutes
  let actualProgress := currentTempF / targetTempF
  let statusAdj : PredictionStatus × ℤ :=
    if expectedProgress * 1.1 < actualProgress then
      (.AHEAD,
       -jsRound ((actualProgress - expectedProgress) * totalExpectedMinutes * 0.3))
    else if actualProgress < expectedProgress * 0.9 then
      (.BEHIND,
       jsRound ((expectedProgress - actualProgress) * totalExpectedMinutes * 0.3))
    else
      (.ON_TRACK, 0)
  let timeAdjustment := statusAdj.2
  let updatedFinishTime := originalPlan.predictedFinishTime + timeAdjustment * 60000
  let deviationFactor := |actualProgress - expectedProgress|
  let adjustedConfidence : ℚ :=
    max 20 ((originalPlan.overallConfidence : ℚ) - deviationFactor * 30)
  { updatedFinishTime := updatedFinishTime
    adjustedConfidence := jsRound adjustedConfidence
    status := statusAdj.1 }

/-! ## Validation ranges (the `VALIDATION` table; the spec's precondition) -/

/-- The caller-enforced validation ranges that apply to a `CookPlanInput`:
weight 0.5-30 lbs, smoker temperature 175-400 °F, ambient temperature
-20-120 °F when given, altitude 0-15000 ft when given. -/
abbrev ValidInput (input : CookPlanInput) : Prop :=
  (1 / 2 : ℚ) ≤ input.weightLbs ∧ input.weightLbs ≤ 30 ∧
    (175 : ℚ) ≤ input.smokerTempF ∧ input.smokerTempF ≤ 400 ∧
    (match input.ambientTempF with
     | some a => (-20 : ℚ) ≤ a ∧ a ≤ 120
     | none => True) ∧
    (match input.altitude with
     | some alt => (0 : ℚ) ≤ alt ∧ alt ≤ 15000
     | none => True)

/-! ## Basic facts about the embedded arithmetic -/

theorem jsRound_le_jsRound {a b : ℚ} (h : a ≤ b) : jsRound a ≤ jsRound b :=
  Int.floor_le_floor (by linarith)

theorem le_jsRound_of_le {n : ℤ} {q : ℚ} (h : (n : ℚ) ≤ q) : n ≤ jsRound q :=
  Int.le_floor.mpr (by linarith)

theorem jsRound_nonneg {q : ℚ} (h : 0 ≤ q) : 0 ≤ jsRound q :=
  le_jsRound_of_le (by exact_mod_cast h)

theorem one_le_jsRound {q : ℚ} (h : 1 / 2 ≤ q) : 1 ≤ jsRound q :=
  Int.le_floor.mpr (by norm_num; linarith)

/-- The environmental multiplier is one of finitely many products; it always
lies in `[0.92, 1.12 * 1.10]`. -/
theorem getEnvironmentalMultiplier_bounds (a alt : Option ℚ) :
    (23 / 25 : ℚ) ≤ getEnvironmentalMultiplier a alt ∧
      getEnvironmentalMultiplier a alt ≤ 154 / 125 := by
  unfold getEnvironmentalMultiplier
  cases a <;> cases alt <;>
    simp only [ENVIRONMENTAL_THRESHOLDS, ENVIRONMENTAL_MULTIPLIERS] <;>
    first
      | (split_ifs <;> norm_num)
      | norm_num

/-- Within the validated weight range the lower cook-time bound is at least
2 minutes for every cut, smoker and environment (so the rounded 30% share of
it used for Smoke Phase 2 is positive). -/
theorem cookTime_min_ge_two (mc : MeatCut) (w : ℚ) (st : SmokerType)
    (wm : WrapMethod) (a alt : Option ℚ) (hw : (1 / 2 : ℚ) ≤ w) :
    (2 : ℤ) ≤ (calculateBaseCookTime mc w st wm a alt).min := by
  obtain ⟨he1, he2⟩ := getEnvironmentalMultiplier_bounds a alt
  have hE0 : (0 : ℚ) ≤ getEnvironmentalMultiplier a alt := le_trans (by norm_num) he1
  have hwe : (23 / 50 : ℚ) ≤ w * getEnvironmentalMultiplier a alt := by
    nlinarith [mul_nonneg (by linarith : (0 : ℚ) ≤ w - 1 / 2) hE0, he1]
  unfold calculateBaseCookTime
  cases mc <;> cases st <;>
    simp [BASE_COOK_TIMES, SMOKER_MULTIPLIERS] <;>
    (apply le_jsRound_of_le; push_cast; nlinarith [hwe, he1])

/-- For nonnegative weights the cook-time range is never degenerate:
the widened spread stays nonnegative through every multiplier. -/
theorem cookTime_min_le_max (mc : MeatCut) (w : ℚ) (st : SmokerType)
    (wm : WrapMethod) (a alt : Option ℚ) (hw : (0 : ℚ) ≤ w) :
    (calculateBaseCookTime mc w st wm a alt).min ≤
      (calculateBaseCookTime mc w st wm a alt).max := by
  obtain ⟨he1, he2⟩ := getEnvironmentalMultiplier_bounds a alt
  have hE0 : (0 : ℚ) ≤ getEnvironmentalMultiplier a alt := le_trans (by norm_num) he1
  unfold calculateBaseCookTime
  cases mc <;> cases st <;>
    simp [BASE_COOK_TIMES, SMOKER_MULTIPLIERS] <;>
    (apply jsRound_le_jsRound; nlinarith [mul_nonneg hw hE0, he1])

/-- The upper cook-time bound is monotone in weight (identical for flat-range
cuts, increasing for per-pound cuts). -/
theorem cookTime_max_mono (mc : MeatCut) (st : SmokerType) (wm : WrapMethod)
    (a alt : Option ℚ) {w1 w2 : ℚ} (h12 : w1 ≤ w2) :
    (calculateBaseCookTime mc w1 st wm a alt).max ≤
      (calculateBaseCookTime mc w2 st wm a alt).max := by
  obtain ⟨he1, he2⟩ := getEnvironmentalMultiplier_bounds a alt
  have hE0 : (0 : ℚ) ≤ getEnvironmentalMultiplier a alt := le_trans (by norm_num) he1
  have hmul : w1 * getEnvironmentalMultiplier a alt ≤
      w2 * getEnvironmentalMultiplier a alt :=
    mul_le_mul_of_nonneg_right h12 hE0
  unfold calculateBaseCookTime
  cases mc <;> cases st <;>
    first
      | (simp [BASE_COOK_TIMES, SMOKER_MULTIPLIERS];
         apply jsRound_le_jsRound; nlinarith [hmul, he1])
      | simp [BASE_COOK_TIMES, SMOKER_MULTIPLIERS]

/-! ## Branch characterizations of the generator -/

def stallPlanModel (input : CookPlanInput) (sd : RangeZ) : CookPlan :=
  let cookTimeRange := calculateBaseCookTime input.meatCut input.weightLbs
    input.smokerType input.wrapMethod input.ambientTempF input.altitude
  let restTime := REST_TIME_MINUTES input.meatCut
  let restEnd := input.serveTime - 30 * 60000
  let restStart := restEnd - restTime.max * 60000
  let smoke1Duration : RangeZ :=
    ⟨jsRound ((cookTimeRange.min : ℚ) * 0.4), jsRound ((cookTimeRange.max : ℚ) * 0.4)⟩
  let smoke2Duration : RangeZ :=
    ⟨jsRound ((cookTimeRange.min : ℚ) * 0.3), jsRound ((cookTimeRange.max : ℚ) * 0.3)⟩
  let smoke2Start := restStart - smoke2Duration.max * 60000
  let stallStart := smoke2Start - sd.max * 60000
  let smoke1Start := stallStart - smoke1Duration.max * 60000
  let preheatStart := smoke1Start - PREHEAT_TIME_MINUTES.max * 60000
  let prepStart := preheatStart - PREP_TIME_MINUTES.max * 60000
  let restPhase : PhaseDefinition :=
    { name := PHASE_NAMES.REST
      startTime := restStart
      endTime := restEnd
      durationRange := restTime
      confidence := PHASE_CONFIDENCE PHASE_NAMES.REST
      notes := "Rest for " ++ toString restTime.min ++ "-" ++ toString restTime.max
        ++ " minutes minimum" }
  let smoke2Phase : PhaseDefinition :=
    { name := PHASE_NAMES.SMOKE_2
      startTime := smoke2Start
      endTime := restStart
      durationRange := smoke2Duration
      confidence := PHASE_CONFIDENCE PHASE_NAMES.SMOKE_2
      notes :=
        if input.wrapMethod ≠ WrapMethod.NONE then
          "Wrapped in " ++ wrapMethodLabel input.wrapMethod
        else "Unwrapped cook continues" }
  let wrapPhases : List PhaseDefinition :=
    if input.wrapMethod ≠ WrapMethod.NONE then
      [{ name := PHASE_NAMES.WRAP_DECISION
         startTime := smoke2Start
         endTime := smoke2Start
         durationRange := ⟨0, 0⟩
         confidence := PHASE_CONFIDENCE PHASE_NAMES.WRAP_DECISION
         notes := "Wrap when internal temp reaches "
           ++ toString STALL_CONFIG.startTempF ++ "-"
           ++ toString STALL_CONFIG.endTempF ++ "°F" }]
    else []
  let stallPhase : PhaseDefinition :=
    { name := PHASE_NAMES.STALL
      startTime := stallStart
      endTime := smoke2Start
      durationRange := sd
      confidence := PHASE_CONFIDENCE PHASE_NAMES.STALL
      notes := "High variance - internal temp plateaus at "
        ++ toString STALL_CONFIG.startTempF ++ "-"
        ++ toString STALL_CONFIG.endTempF ++ "°F" }
  let smoke1Phase : PhaseDefinition :=
    { name := PHASE_NAMES.SMOKE_1
      startTime := smoke1Start
      endTime := stallStart
      durationRange := smoke1Duration
      confidence := PHASE_CONFIDENCE PHASE_NAMES.SMOKE_1
      notes := "Smoke at " ++ toString input.smokerTempF ++ "°F" }
  let preheatPhase : PhaseDefinition :=
    { name := PHASE_NAMES.PREHEAT
      startTime := preheatStart
      endTime := smoke1Start
      durationRange := PREHEAT_TIME_MINUTES
      confidence := PHASE_CONFIDENCE PHASE_NAMES.PREHEAT
      notes := "Preheat smoker to " ++ toString input.smokerTempF ++ "°F" }
  let prepPhase : PhaseDefinition :=
    { name := PHASE_NAMES.PREP
      startTime := prepStart
      endTime := preheatStart
      durationRange := PREP_TIME_MINUTES
      confidence := PHASE_CONFIDENCE PHASE_NAMES.PREP
      notes := "Trim fat, apply rub, bring to room temperature" }
  let phases : List PhaseDefinition :=
    prepPhase :: preheatPhase :: smoke1Phase :: stallPhase ::
      (wrapPhases ++ [smoke2Phase, restPhase])
  let totalVarianceMinutes : ℤ :=
    (cookTimeRange.max - cookTimeRange.min) + (sd.max - sd.min)
  { phases := assignOrders 0 phases
    predictedFinishTime := restStart
    confidenceRange :=
      { earliest := restStart - totalVarianceMinutes * 30000
        latest := restStart + totalVarianceMinutes * 30000 }
    overallConfidence := calculateOverallConfidence phases input.smokerType
    recommendedStartTime := prepStart }

theorem generateCookPlan_stall (input : CookPlanInput) (sd : RangeZ)
    (hsd : calculateStallDuration input.meatCut input.wrapMethod = some sd)
    (hmin : (2 : ℤ) ≤ (calculateBaseCookTime input.meatCut input.weightLbs
      input.smokerType input.wrapMethod input.ambientTempF input.altitude).min) :
    generateCookPlan input = stallPlanModel input sd := by
  have hs : hasStall input.meatCut = true := by
    by_contra h
    rw [Bool.not_eq_true] at h
    simp [calculateStallDuration, h] at hsd
  have hpos : (0 : ℤ) < jsRound (((calculateBaseCookTime input.meatCut
      input.weightLbs input.smokerType input.wrapMethod input.ambientTempF
      input.altitude).min : ℚ) * 0.3) := by
    have h2 : (2 : ℚ) ≤ ((calculateBaseCookTime input.meatCut input.weightLbs
        input.smokerType input.wrapMethod input.ambientTempF
        input.altitude).min : ℚ) := by exact_mod_cast hmin
    have := one_le_jsRound (q := ((calculateBaseCookTime input.meatCut
        input.weightLbs input.smokerType input.wrapMethod input.ambientTempF
        input.altitude).min : ℚ) * 0.3) (by nlinarith)
    omega
  unfold generateCookPlan stallPlanModel
  simp only [hsd, hs, Option.isSome_some, Bool.and_self, if_true,
    List.singleton_append, List.cons_append, List.nil_append, List.head?_cons,
    hpos, List.append_assoc]


def singlePlanModel (input : CookPlanInput) : CookPlan :=
  let cookTimeRange := calculateBaseCookTime input.meatCut input.weightLbs
    input.smokerType input.wrapMethod input.ambientTempF input.altitude
  let restTime := REST_TIME_MINUTES input.meatCut
  let restEnd := input.serveTime - 30 * 60000
  let restStart := restEnd - restTime.max * 60000
  let smoke1Start := restStart - cookTimeRange.max * 60000
  let preheatStart := smoke1Start - PREHEAT_TIME_MINUTES.max * 60000
  let prepStart := preheatStart - PREP_TIME_MINUTES.max * 60000
  let restPhase : PhaseDefinition :=
    { name := PHASE_NAMES.REST
      startTime := restStart
      endTime := restEnd
      durationRange := restTime
      confidence := PHASE_CONFIDENCE PHASE_NAMES.REST
      notes := "Rest for " ++ toString restTime.min ++ "-" ++ toString restTime.max
        ++ " minutes minimum" }
  let smoke1Phase : PhaseDefinition :=
    { name := PHASE_NAMES.SMOKE_1
      startTime := smoke1Start
      endTime := restStart
      durationRange := cookTimeRange
      confidence := PHASE_CONFIDENCE PHASE_NAMES.SMOKE_1
      notes := "Smoke at " ++ toString input.smokerTempF ++ "°F" }
  let preheatPhase : PhaseDefinition :=
    { name := PHASE_NAMES.PREHEAT
      startTime := preheatStart
      endTime := smoke1Start
      durationRange := PREHEAT_TIME_MINUTES
      confidence := PHASE_CONFIDENCE PHASE_NAMES.PREHEAT
      notes := "Preheat smoker to " ++ toString input.smokerTempF ++ "°F" }
  let prepPhase : PhaseDefinition :=
    { name := PHASE_NAMES.PREP
      startTime := prepStart
      endTime := preheatStart
      durationRange := PREP_TIME_MINUTES
      confidence := PHASE_CONFIDENCE PHASE_NAMES.PREP
      notes := "Trim fat, apply rub, bring to room temperature" }
  let phases : List PhaseDefinition :=
    [prepPhase, preheatPhase, smoke1Phase, restPhase]
  let totalVarianceMinutes : ℤ := cookTimeRange.max - cookTimeRange.min + 0
  { phases := assignOrders 0 phases
    predictedFinishTime := restStart
    confidenceRange :=
      { earliest := restStart - totalVarianceMinutes * 30000
        latest := restStart + totalVarianceMinutes * 30000 }
    overallConfidence := calculateOverallConfidence phases input.smokerType
    recommendedStartTime := prepStart }

theorem generateCookPlan_single (input : CookPlanInput)
    (hs : hasStall input.meatCut = false) :
    generateCookPlan input = singlePlanModel input := by
  have hsd : calculateStallDuration input.meatCut input.wrapMethod = none := by
    simp [calculateStallDuration, hs]
  unfold generateCookPlan singlePlanModel
  simp only [hsd, hs, Option.isSome_none, Bool.false_and, Bool.and_self,
    if_false, Bool.false_eq_true, List.nil_append, List.head?_cons,
    lt_self_iff_false]



/-! ## Claims -/

theorem stall_has_duration (mc : MeatCut) (wm : WrapMethod)
    (hs : hasStall mc = true) :
    ∃ sd, calculateStallDuration mc wm = some sd := by
  unfold calculateStallDuration
  rw [hs]
  simp

/-- A concrete, validation-range input used by the witnesses: a 10 lb brisket
on a pellet smoker at 225 °F, no wrap, serve time at epoch+1000000 ms. -/
def exInput : CookPlanInput :=
  { meatCut := .BRISKET
    weightLbs := 10
    smokerType := .PELLET
    smokerTempF := 225
    wrapMethod := .NONE
    serveTime := 1000000
    ambientTempF := none
    altitude := none }

/-- C7, stated over the output of `generateCookPlan`: the first phase is
Prep & Trim and starts at the recommended start time; a Rest phase exists and
every phase named Rest starts at the predicted finish time. -/
def FinishAnchorsSpec (input : CookPlanInput) : Prop :=
  (generateCookPlan input).phases.head?.map (fun p => (p.name, p.startTime))
      = some (PHASE_NAMES.PREP, (generateCookPlan input).recommendedStartTime) ∧
    (∃ p ∈ (generateCookPlan input).phases, p.name = PHASE_NAMES.REST) ∧
    ∀ p ∈ (generateCookPlan input).phases, p.name = PHASE_NAMES.REST →
      p.startTime = (generateCookPlan input).predictedFinishTime

theorem finishAnchors_of_stall (input : CookPlanInput) (sd : RangeZ)
    (hsd : calculateStallDuration input.meatCut input.wrapMethod = some sd)
    (hmin : (2 : ℤ) ≤ (calculateBaseCookTime input.meatCut input.weightLbs
      input.smokerType input.wrapMethod input.ambientTempF input.altitude).min) :
    FinishAnchorsSpec input := by
  unfold FinishAnchorsSpec
  rw [generateCookPlan_stall input sd hsd hmin]
  by_cases hwm : input.wrapMethod = WrapMethod.NONE <;>
    simp [stallPlanModel, assignOrders, hwm, PHASE_NAMES.PREP, PHASE_NAMES.REST,
      PHASE_NAMES.PREHEAT, PHASE_NAMES.SMOKE_1, PHASE_NAMES.SMOKE_2,
      PHASE_NAMES.STALL, PHASE_NAMES.WRAP_DECISION]

theorem finishAnchors_of_single (input : CookPlanInput)
    (hs : hasStall input.meatCut = false) :
    FinishAnchorsSpec input := by
  unfold FinishAnchorsSpec
  rw [generateCookPlan_single input hs]
  simp [singlePlanModel, assignOrders, PHASE_NAMES.PREP, PHASE_NAMES.REST,
    PHASE_NAMES.PREHEAT, PHASE_NAMES.SMOKE_1]

/-- C7: for every valid input the predicted finish time is the start of the
Rest phase and the recommended start time is the start of the first phase,
Prep & Trim. -/
theorem claim7_finish_is_rest_start (input : CookPlanInput)
    (h : ValidInput input) : FinishAnchorsSpec input := by
  obtain ⟨hw, -⟩ := h
  cases hst : hasStall input.meatCut with
  | false => exact finishAnchors_of_single input hst
  | true =>
      obtain ⟨sd, hsd⟩ := stall_has_duration input.meatCut input.wrapMethod hst
      exact finishAnchors_of_stall input sd hsd
        (cookTime_min_ge_two input.meatCut input.weightLbs input.smokerType
          input.wrapMethod input.ambientTempF input.altitude hw)

theorem claim7_witness : FinishAnchorsSpec exInput :=
  claim7_finish_is_rest_start exInput (by norm_num [ValidInput, exInput])



/-- The `totalVarianceMinutes` quantity of `generateCookPlan`: cook-time
spread plus stall spread (0 when the cut has no stall). -/
def totalVarianceMinutes (input : CookPlanInput) : ℤ :=
  let cookTimeRange := calculateBaseCookTime input.meatCut input.weightLbs
    input.smokerType input.wrapMethod input.ambientTempF input.altitude
  (cookTimeRange.max - cookTimeRange.min) +
    (match calculateStallDuration input.meatCut input.wrapMethod with
     | some sd => sd.max - sd.min
     | none => 0)

theorem stallDuration_sound {mc : MeatCut} {wm : WrapMethod} {sd : RangeZ}
    (h : calculateStallDuration mc wm = some sd) :
    0 ≤ sd.min ∧ sd.min ≤ sd.max := by
  unfold calculateStallDuration at h
  cases hs : hasStall mc with
  | false => rw [hs] at h; simp at h
  | true =>
      rw [hs] at h
      simp only [Bool.not_true, Bool.false_eq_true, if_false, STALL_CONFIG,
        Option.some.injEq] at h
      split_ifs at h <;> rw [← h] <;>
        exact ⟨jsRound_nonneg (by norm_num), jsRound_le_jsRound (by norm_num)⟩

theorem totalVarianceMinutes_nonneg (input : CookPlanInput)
    (hw : (0 : ℚ) ≤ input.weightLbs) : 0 ≤ totalVarianceMinutes input := by
  have h1 := cookTime_min_le_max input.meatCut input.weightLbs input.smokerType
    input.wrapMethod input.ambientTempF input.altitude hw
  unfold totalVarianceMinutes
  cases hsd : calculateStallDuration input.meatCut input.wrapMethod with
  | none => simp only [hsd]; omega
  | some sd =>
      obtain ⟨-, hb2⟩ := stallDuration_sound hsd
      obtain ⟨smin, smax⟩ := sd
      dsimp only at hb2
      simp only [hsd]
      have hres : (0 : ℤ) ≤
          ((calculateBaseCookTime input.meatCut input.weightLbs
              input.smokerType input.wrapMethod input.ambientTempF
              input.altitude).max
            - (calculateBaseCookTime input.meatCut input.weightLbs
              input.smokerType input.wrapMethod input.ambientTempF
              input.altitude).min)
          + (smax - smin) := by omega
      exact hres

/-- C2, stated over the output of `generateCookPlan`: the confidence range
is the predicted finish time bracketed by half the total variance (in
milliseconds: `totalVariance * 30000 = (totalVariance / 2) * 60000`) on each
side, and therefore contains the predicted finish time. -/
def ConfidenceRangeSpec (input : CookPlanInput) : Prop :=
  (generateCookPlan input).confidenceRange.earliest
      = (generateCookPlan input).predictedFinishTime
        - totalVarianceMinutes input * 30000 ∧
    (generateCookPlan input).confidenceRange.latest
      = (generateCookPlan input).predictedFinishTime
        + totalVarianceMinutes input * 30000 ∧
    (generateCookPlan input).confidenceRange.earliest
      ≤ (generateCookPlan input).predictedFinishTime ∧
    (generateCookPlan input).predictedFinishTime
      ≤ (generateCookPlan input).confidenceRange.latest

/-- C2: the confidence range brackets the predicted finish time by half the
total variance in each direction, and the finish time lies inside it. -/
theorem claim2_confidence_range_brackets (input : CookPlanInput)
    (h : ValidInput input) : ConfidenceRangeSpec input := by
  have hw : (0 : ℚ) ≤ input.weightLbs := le_trans (by norm_num) h.1
  have htv := totalVarianceMinutes_nonneg input hw
  have he : (generateCookPlan input).confidenceRange.earliest
      = (generateCookPlan input).predictedFinishTime
        - totalVarianceMinutes input * 30000 := rfl
  have hl : (generateCookPlan input).confidenceRange.latest
      = (generateCookPlan input).predictedFinishTime
        + totalVarianceMinutes input * 30000 := rfl
  exact ⟨he, hl, by rw [he]; omega, by rw [hl]; omega⟩

theorem claim2_witness : ConfidenceRangeSpec exInput :=
  claim2_confidence_range_brackets exInput (by norm_num [ValidInput, exInput])



theorem assignOrders_filter_confidence (c : Confidence) :
    ∀ (i : ℕ) (l : List PhaseDefinition),
      ((assignOrders i l).filter fun p => p.confidence == c).length
        = (l.filter fun p => p.confidence == c).length := by
  intro i l
  induction l generalizing i with
  | nil => rfl
  | cons p rest ih =>
      simp only [assignOrders, List.filter_cons]
      cases h : (p.confidence == c) <;> simp [h, ih]

/-- C6: the overall confidence of a generated plan is exactly the clamped
score: 100, minus `(varianceMultiplier - 1) * 50` for the smoker type, minus
10 per Low-confidence phase and 5 per Medium-confidence phase of the plan,
rounded and clamped to `[20, 100]`; hence an integer in `[20, 100]`. -/
theorem claim6_overall_confidence_formula (input : CookPlanInput) :
    (generateCookPlan input).overallConfidence
        = max 20 (min 100 (jsRound ((100 : ℚ)
            - ((SMOKER_MULTIPLIERS input.smokerType).varianceMultiplier - 1) * 50
            - (((generateCookPlan input).phases.filter
                fun p => p.confidence == Confidence.LOW).length : ℚ) * 10
            - (((generateCookPlan input).phases.filter
                fun p => p.confidence == Confidence.MEDIUM).length : ℚ) * 5))) ∧
      20 ≤ (generateCookPlan input).overallConfidence ∧
      (generateCookPlan input).overallConfidence ≤ 100 := by
  have hmain : (generateCookPlan input).overallConfidence
      = max 20 (min 100 (jsRound ((100 : ℚ)
          - ((SMOKER_MULTIPLIERS input.smokerType).varianceMultiplier - 1) * 50
          - (((generateCookPlan input).phases.filter
              fun p => p.confidence == Confidence.LOW).length : ℚ) * 10
          - (((generateCookPlan input).phases.filter
              fun p => p.confidence == Confidence.MEDIUM).length : ℚ) * 5))) := by
    simp only [generateCookPlan, calculateOverallConfidence,
      assignOrders_filter_confidence]
  refine ⟨hmain, ?_, ?_⟩
  · rw [hmain]; exact le_max_left _ _
  · rw [hmain]
    exact max_le (by norm_num) (le_trans (min_le_left _ _) (by norm_num))



/-- C4, stated over the output of `generateCookPlan`: a Stall Window phase is
present iff the cut is in the stall-affected set; a Wrap Decision phase is
present iff the wrap method is not NONE and the cut is stall-affected; and
for a cut outside the set the phase names are exactly Prep & Trim, Preheat
Smoker, Smoke Phase 1, Rest (one smoke phase, no Stall Window, no Wrap
Decision, no Smoke Phase 2). -/
def StallWrapSpec (input : CookPlanInput) : Prop :=
  ((∃ p ∈ (generateCookPlan input).phases, p.name = PHASE_NAMES.STALL) ↔
      input.meatCut ∈ STALL_CONFIG.affectedCuts) ∧
    ((∃ p ∈ (generateCookPlan input).phases, p.name = PHASE_NAMES.WRAP_DECISION) ↔
      (input.wrapMethod ≠ WrapMethod.NONE ∧
        input.meatCut ∈ STALL_CONFIG.affectedCuts)) ∧
    (input.meatCut ∉ STALL_CONFIG.affectedCuts →
      (generateCookPlan input).phases.map (fun p => p.name)
        = [PHASE_NAMES.PREP, PHASE_NAMES.PREHEAT, PHASE_NAMES.SMOKE_1,
           PHASE_NAMES.REST])

theorem hasStall_iff_mem (mc : MeatCut) :
    hasStall mc = true ↔ mc ∈ STALL_CONFIG.affectedCuts := by
  cases mc <;> simp [hasStall, STALL_CONFIG] <;> decide

theorem stallWrap_of_stall (input : CookPlanInput) (sd : RangeZ)
    (hsd : calculateStallDuration input.meatCut input.wrapMethod = some sd)
    (hst : hasStall input.meatCut = true)
    (hmin : (2 : ℤ) ≤ (calculateBaseCookTime input.meatCut input.weightLbs
      input.smokerType input.wrapMethod input.ambientTempF input.altitude).min) :
    StallWrapSpec input := by
  unfold StallWrapSpec
  rw [generateCookPlan_stall input sd hsd hmin]
  rw [← hasStall_iff_mem]
  by_cases hwm : input.wrapMethod = WrapMethod.NONE <;>
    simp [stallPlanModel, assignOrders, hwm, hst, PHASE_NAMES.PREP,
      PHASE_NAMES.REST, PHASE_NAMES.PREHEAT, PHASE_NAMES.SMOKE_1,
      PHASE_NAMES.SMOKE_2, PHASE_NAMES.STALL, PHASE_NAMES.WRAP_DECISION]

theorem stallWrap_of_single (input : CookPlanInput)
    (hst : hasStall input.meatCut = false) :
    StallWrapSpec input := by
  unfold StallWrapSpec
  rw [generateCookPlan_single input hst]
  rw [← hasStall_iff_mem]
  simp [singlePlanModel, assignOrders, hst, PHASE_NAMES.PREP,
    PHASE_NAMES.REST, PHASE_NAMES.PREHEAT, PHASE_NAMES.SMOKE_1,
    PHASE_NAMES.SMOKE_2, PHASE_NAMES.STALL, PHASE_NAMES.WRAP_DECISION]

/-- C4: Stall Window present iff stall-affected cut; Wrap Decision present
iff wrapping and stall-affected; non-stall cuts get a single smoke phase. -/
theorem claim4_stall_and_wrap_phases (input : CookPlanInput)
    (h : ValidInput input) : StallWrapSpec input := by
  obtain ⟨hw, -⟩ := h
  cases hst : hasStall input.meatCut with
  | false => exact stallWrap_of_single input hst
  | true =>
      obtain ⟨sd, hsd⟩ := stall_has_duration input.meatCut input.wrapMethod hst
      exact stallWrap_of_stall input sd hsd hst
        (cookTime_min_ge_two input.meatCut input.weightLbs input.smokerType
          input.wrapMethod input.ambientTempF input.altitude hw)

theorem claim4_witness : StallWrapSpec exInput :=
  claim4_stall_and_wrap_phases exInput (by norm_num [ValidInput, exInput])



theorem restTime_bounds (mc : MeatCut) :
    0 ≤ (REST_TIME_MINUTES mc).min ∧
      (REST_TIME_MINUTES mc).min ≤ (REST_TIME_MINUTES mc).max := by
  cases mc <;> exact ⟨by decide, by decide⟩

/-- C9, stated over the generator's intermediate ranges and the output
phases: the cook-time range and the stall range satisfy `0 ≤ min ≤ max`, and
every phase of the plan has `0 ≤ durationRange.min ≤ durationRange.max` and
`startTime ≤ endTime` (no negative-length phase). -/
def RangesSpec (input : CookPlanInput) : Prop :=
  (0 ≤ (calculateBaseCookTime input.meatCut input.weightLbs input.smokerType
        input.wrapMethod input.ambientTempF input.altitude).min ∧
      (calculateBaseCookTime input.meatCut input.weightLbs input.smokerType
        input.wrapMethod input.ambientTempF input.altitude).min ≤
        (calculateBaseCookTime input.meatCut input.weightLbs input.smokerType
          input.wrapMethod input.ambientTempF input.altitude).max) ∧
    (∀ sd, calculateStallDuration input.meatCut input.wrapMethod = some sd →
      0 ≤ sd.min ∧ sd.min ≤ sd.max) ∧
    ∀ p ∈ (generateCookPlan input).phases,
      0 ≤ p.durationRange.min ∧ p.durationRange.min ≤ p.durationRange.max ∧
        p.startTime ≤ p.endTime

theorem ranges_of_stall (input : CookPlanInput) (sd : RangeZ)
    (hsd : calculateStallDuration input.meatCut input.wrapMethod = some sd)
    (hw : (1 / 2 : ℚ) ≤ input.weightLbs) : RangesSpec input := by
  obtain ⟨mc, w, st, tF, wm, serve, a, alt⟩ := input
  unfold RangesSpec
  dsimp only at hsd hw ⊢
  have hmin := cookTime_min_ge_two mc w st wm a alt hw
  have hmm := cookTime_min_le_max mc w st wm a alt (by linarith)
  have hcast : (((calculateBaseCookTime mc w st wm a alt).min : ℚ)) ≤
      ((calculateBaseCookTime mc w st wm a alt).max : ℚ) := by exact_mod_cast hmm
  have hcast0 : (0 : ℚ) ≤ ((calculateBaseCookTime mc w st wm a alt).min : ℚ) := by
    exact_mod_cast (by omega : (0 : ℤ) ≤ (calculateBaseCookTime mc w st wm a alt).min)
  have h4a : 0 ≤ jsRound (((calculateBaseCookTime mc w st wm a alt).min : ℚ) * 0.4) :=
    jsRound_nonneg (mul_nonneg hcast0 (by norm_num))
  have h4b : jsRound (((calculateBaseCookTime mc w st wm a alt).min : ℚ) * 0.4) ≤
      jsRound (((calculateBaseCookTime mc w st wm a alt).max : ℚ) * 0.4) :=
    jsRound_le_jsRound (mul_le_mul_of_nonneg_right hcast (by norm_num))
  have h3a : 0 ≤ jsRound (((calculateBaseCookTime mc w st wm a alt).min : ℚ) * 0.3) :=
    jsRound_nonneg (mul_nonneg hcast0 (by norm_num))
  have h3b : jsRound (((calculateBaseCookTime mc w st wm a alt).min : ℚ) * 0.3) ≤
      jsRound (((calculateBaseCookTime mc w st wm a alt).max : ℚ) * 0.3) :=
    jsRound_le_jsRound (mul_le_mul_of_nonneg_right hcast (by norm_num))
  obtain ⟨hr1, hr2⟩ := restTime_bounds mc
  obtain ⟨hsd0, hsdle⟩ := stallDuration_sound hsd
  rw [generateCookPlan_stall ⟨mc, w, st, tF, wm, serve, a, alt⟩ sd hsd hmin]
  refine ⟨⟨by omega, hmm⟩, fun sd' hsd' => stallDuration_sound hsd', ?_⟩
  intro p hp
  by_cases hwm : wm = WrapMethod.NONE
  · subst hwm
    simp [stallPlanModel, assignOrders] at hp
    rcases hp with rfl | rfl | rfl | rfl | rfl | rfl <;>
      refine ⟨by dsimp only [PREP_TIME_MINUTES, PREHEAT_TIME_MINUTES]; omega,
        by dsimp only [PREP_TIME_MINUTES, PREHEAT_TIME_MINUTES]; omega,
        by dsimp only [PREP_TIME_MINUTES, PREHEAT_TIME_MINUTES]; omega⟩
  · simp [stallPlanModel, assignOrders, hwm] at hp
    rcases hp with rfl | rfl | rfl | rfl | rfl | rfl | rfl <;>
      refine ⟨by dsimp only [PREP_TIME_MINUTES, PREHEAT_TIME_MINUTES]; omega,
        by dsimp only [PREP_TIME_MINUTES, PREHEAT_TIME_MINUTES]; omega,
        by dsimp only [PREP_TIME_MINUTES, PREHEAT_TIME_MINUTES]; omega⟩

theorem ranges_of_single (input : CookPlanInput)
    (hst : hasStall input.meatCut = false)
    (hw : (1 / 2 : ℚ) ≤ input.weightLbs) : RangesSpec input := by
  have hmin := cookTime_min_ge_two input.meatCut input.weightLbs
    input.smokerType input.wrapMethod input.ambientTempF input.altitude hw
  have hmm := cookTime_min_le_max input.meatCut input.weightLbs
    input.smokerType input.wrapMethod input.ambientTempF input.altitude
    (by linarith)
  obtain ⟨hr1, hr2⟩ := restTime_bounds input.meatCut
  unfold RangesSpec
  rw [generateCookPlan_single input hst]
  refine ⟨⟨by omega, hmm⟩, fun sd' hsd' => stallDuration_sound hsd', ?_⟩
  intro p hp
  simp [singlePlanModel, assignOrders] at hp
  rcases hp with rfl | rfl | rfl | rfl <;>
    refine ⟨by dsimp only [PREP_TIME_MINUTES, PREHEAT_TIME_MINUTES]; omega, by dsimp only [PREP_TIME_MINUTES, PREHEAT_TIME_MINUTES]; omega, by dsimp only [PREP_TIME_MINUTES, PREHEAT_TIME_MINUTES]; omega⟩

/-- C9: no degenerate or negative duration range reaches the plan. -/
theorem claim9_ranges_sound (input : CookPlanInput)
    (h : ValidInput input) : RangesSpec input := by
  obtain ⟨hw, -⟩ := h
  cases hst : hasStall input.meatCut with
  | false => exact ranges_of_single input hst hw
  | true =>
      obtain ⟨sd, hsd⟩ := stall_has_duration input.meatCut input.wrapMethod hst
      exact ranges_of_stall input sd hsd hw

theorem claim9_witness : RangesSpec exInput :=
  claim9_ranges_sound exInput (by norm_num [ValidInput, exInput])



/-- C1, stated over the output of `generateCookPlan`: adjacent phases are
contiguous (each phase's end time equals the next phase's start time), start
times are non-decreasing along the list, and the last phase's end time is
not before the first phase's start time. -/
def ContiguitySpec (input : CookPlanInput) : Prop :=
  List.Chain' (fun p q => p.endTime = q.startTime)
      (generateCookPlan input).phases ∧
    List.Chain' (fun p q => p.startTime ≤ q.startTime)
      (generateCookPlan input).phases ∧
    ∀ p ∈ (generateCookPlan input).phases.head?,
      ∀ q ∈ (generateCookPlan input).phases.getLast?, p.startTime ≤ q.endTime

theorem contiguity_of_stall (input : CookPlanInput) (sd : RangeZ)
    (hsd : calculateStallDuration input.meatCut input.wrapMethod = some sd)
    (hw : (1 / 2 : ℚ) ≤ input.weightLbs) : ContiguitySpec input := by
  obtain ⟨mc, w, st, tF, wm, serve, a, alt⟩ := input
  unfold ContiguitySpec
  dsimp only at hsd hw ⊢
  have hmin := cookTime_min_ge_two mc w st wm a alt hw
  have hmm := cookTime_min_le_max mc w st wm a alt (by linarith)
  have hcast : (((calculateBaseCookTime mc w st wm a alt).min : ℚ)) ≤
      ((calculateBaseCookTime mc w st wm a alt).max : ℚ) := by exact_mod_cast hmm
  have hcast0 : (0 : ℚ) ≤ ((calculateBaseCookTime mc w st wm a alt).min : ℚ) := by
    exact_mod_cast (by omega : (0 : ℤ) ≤ (calculateBaseCookTime mc w st wm a alt).min)
  have h4b : jsRound (((calculateBaseCookTime mc w st wm a alt).min : ℚ) * 0.4) ≤
      jsRound (((calculateBaseCookTime mc w st wm a alt).max : ℚ) * 0.4) :=
    jsRound_le_jsRound (mul_le_mul_of_nonneg_right hcast (by norm_num))
  have h4a : 0 ≤ jsRound (((calculateBaseCookTime mc w st wm a alt).min : ℚ) * 0.4) :=
    jsRound_nonneg (mul_nonneg hcast0 (by norm_num))
  have h3a : 0 ≤ jsRound (((calculateBaseCookTime mc w st wm a alt).min : ℚ) * 0.3) :=
    jsRound_nonneg (mul_nonneg hcast0 (by norm_num))
  have h3b : jsRound (((calculateBaseCookTime mc w st wm a alt).min : ℚ) * 0.3) ≤
      jsRound (((calculateBaseCookTime mc w st wm a alt).max : ℚ) * 0.3) :=
    jsRound_le_jsRound (mul_le_mul_of_nonneg_right hcast (by norm_num))
  obtain ⟨hr1, hr2⟩ := restTime_bounds mc
  obtain ⟨hsd0, hsdle⟩ := stallDuration_sound hsd
  rw [generateCookPlan_stall ⟨mc, w, st, tF, wm, serve, a, alt⟩ sd hsd hmin]
  by_cases hwm : wm = WrapMethod.NONE
  · subst hwm
    simp [stallPlanModel, assignOrders, List.chain'_cons, PREP_TIME_MINUTES,
      PREHEAT_TIME_MINUTES]
    omega
  · simp [stallPlanModel, assignOrders, hwm, List.chain'_cons,
      PREP_TIME_MINUTES, PREHEAT_TIME_MINUTES]
    omega

theorem contiguity_of_single (input : CookPlanInput)
    (hst : hasStall input.meatCut = false)
    (hw : (1 / 2 : ℚ) ≤ input.weightLbs) : ContiguitySpec input := by
  obtain ⟨mc, w, st, tF, wm, serve, a, alt⟩ := input
  unfold ContiguitySpec
  dsimp only at hst hw ⊢
  have hmin := cookTime_min_ge_two mc w st wm a alt hw
  have hmm := cookTime_min_le_max mc w st wm a alt (by linarith)
  obtain ⟨hr1, hr2⟩ := restTime_bounds mc
  rw [generateCookPlan_single ⟨mc, w, st, tF, wm, serve, a, alt⟩ hst]
  simp [singlePlanModel, assignOrders, List.chain'_cons, PREP_TIME_MINUTES,
    PREHEAT_TIME_MINUTES]
  omega

/-- C1: phases are contiguous, in non-decreasing start-time order, and the
last phase ends no earlier than the first begins. -/
theorem claim1_phases_contiguous (input : CookPlanInput)
    (h : ValidInput input) : ContiguitySpec input := by
  obtain ⟨hw, -⟩ := h
  cases hst : hasStall input.meatCut with
  | false => exact contiguity_of_single input hst hw
  | true =>
      obtain ⟨sd, hsd⟩ := stall_has_duration input.meatCut input.wrapMethod hst
      exact contiguity_of_stall input sd hsd hw

theorem claim1_witness : ContiguitySpec exInput :=
  claim1_phases_contiguous exInput (by norm_num [ValidInput, exInput])



/-- The span from a plan's recommended start time to its predicted finish
time, in milliseconds. -/
def planSpan (input : CookPlanInput) : ℤ :=
  (generateCookPlan input).predictedFinishTime
    - (generateCookPlan input).recommendedStartTime

/-- C8: for a per-pound cut, increasing the weight (all other inputs fixed,
both weights in the validation range) never shrinks the span from the
recommended start time to the predicted finish time. -/
theorem claim8_span_monotone_in_weight (input : CookPlanInput) (w2 : ℚ)
    (h1 : ValidInput input) (h2 : ValidInput { input with weightLbs := w2 })
    (hpp : (BASE_COOK_TIMES input.meatCut).perPound = true)
    (hw12 : input.weightLbs ≤ w2) :
    planSpan input ≤ planSpan { input with weightLbs := w2 } := by
  obtain ⟨mc, w, st, tF, wm, serve, a, alt⟩ := input
  obtain ⟨hw, -⟩ := h1
  obtain ⟨hw2, -⟩ := h2
  unfold planSpan
  dsimp only at hpp hw hw2 hw12 ⊢
  have hst : hasStall mc = true := by
    cases mc <;> simp [BASE_COOK_TIMES] at hpp <;> decide
  obtain ⟨sd, hsd⟩ := stall_has_duration mc wm hst
  have hmin1 := cookTime_min_ge_two mc w st wm a alt hw
  have hmin2 := cookTime_min_ge_two mc w2 st wm a alt hw2
  have hmax := cookTime_max_mono mc st wm a alt hw12
  have hcast : (((calculateBaseCookTime mc w st wm a alt).max : ℚ)) ≤
      ((calculateBaseCookTime mc w2 st wm a alt).max : ℚ) := by exact_mod_cast hmax
  have h4 : jsRound (((calculateBaseCookTime mc w st wm a alt).max : ℚ) * 0.4) ≤
      jsRound (((calculateBaseCookTime mc w2 st wm a alt).max : ℚ) * 0.4) :=
    jsRound_le_jsRound (mul_le_mul_of_nonneg_right hcast (by norm_num))
  have h3 : jsRound (((calculateBaseCookTime mc w st wm a alt).max : ℚ) * 0.3) ≤
      jsRound (((calculateBaseCookTime mc w2 st wm a alt).max : ℚ) * 0.3) :=
    jsRound_le_jsRound (mul_le_mul_of_nonneg_right hcast (by norm_num))
  rw [generateCookPlan_stall ⟨mc, w, st, tF, wm, serve, a, alt⟩ sd hsd hmin1,
    generateCookPlan_stall ⟨mc, w2, st, tF, wm, serve, a, alt⟩ sd hsd hmin2]
  simp [stallPlanModel]
  omega

theorem claim8_witness :
    planSpan exInput ≤ planSpan { exInput with weightLbs := 12 } :=
  claim8_span_monotone_in_weight exInput 12
    (by norm_num [ValidInput, exInput]) (by norm_num [ValidInput, exInput])
    (by decide) (by norm_num [exInput])



/-- C3, stated over `updatePrediction` with `expectedProgress` and
`actualProgress` as the source computes them: status AHEAD exactly when
actual progress exceeds 110% of expected, BEHIND exactly when it trails 90%
of expected, ON_TRACK otherwise with zero adjustment; the finish time moves
by the rounded 30% of the progress gap projected over the total expected
minutes (earlier when ahead, later when behind); equal progress yields
ON_TRACK. -/
def PredictionStatusSpec (plan : CookPlan)
    (currentTempF elapsedMinutes targetTempF : ℚ) : Prop :=
  let r := updatePrediction plan currentTempF elapsedMinutes targetTempF
  let totalExpectedMinutes : ℚ :=
    ((plan.confidenceRange.latest - plan.recommendedStartTime : ℤ) : ℚ) / 60000
  let expectedProgress := elapsedMinutes / totalExpectedMinutes
  let actualProgress := currentTempF / targetTempF
  (r.status = .AHEAD ↔ expectedProgress * 1.1 < actualProgress) ∧
    (r.status = .BEHIND ↔ actualProgress < expectedProgress * 0.9) ∧
    (r.status = .AHEAD →
      r.updatedFinishTime = plan.predictedFinishTime
        - jsRound ((actualProgress - expectedProgress)
            * totalExpectedMinutes * 0.3) * 60000) ∧
    (r.status = .BEHIND →
      r.updatedFinishTime = plan.predictedFinishTime
        + jsRound ((expectedProgress - actualProgress)
            * totalExpectedMinutes * 0.3) * 60000) ∧
    (r.status = .ON_TRACK → r.updatedFinishTime = plan.predictedFinishTime) ∧
    (actualProgress = expectedProgress → r.status = .ON_TRACK)

/-- C3: the ahead/on-track/behind decision follows the 10% deviation
thresholds with the 30% projected-gap adjustment, and equal progress is
always on track.  The hypotheses pin the sensible reading the claim
describes: non-negative elapsed time and a plan whose confidence-range
upper bound lies after its recommended start. -/
theorem claim3_update_prediction_status (plan : CookPlan)
    (currentTempF elapsedMinutes targetTempF : ℚ)
    (hel : 0 ≤ elapsedMinutes)
    (hspan : plan.recommendedStartTime < plan.confidenceRange.latest) :
    PredictionStatusSpec plan currentTempF elapsedMinutes targetTempF := by
  unfold PredictionStatusSpec updatePrediction
  have hT : (0 : ℚ) <
      ((plan.confidenceRange.latest - plan.recommendedStartTime : ℤ) : ℚ) / 60000 := by
    have : (0 : ℤ) < plan.confidenceRange.latest - plan.recommendedStartTime := by omega
    have hq : (0 : ℚ) < ((plan.confidenceRange.latest - plan.recommendedStartTime : ℤ) : ℚ) := by
      exact_mod_cast this
    positivity
  have he0 : 0 ≤ elapsedMinutes /
      (((plan.confidenceRange.latest - plan.recommendedStartTime : ℤ) : ℚ) / 60000) :=
    div_nonneg hel hT.le
  dsimp only
  split_ifs with hA hB
  · dsimp only
    refine ⟨iff_of_true rfl hA,
      iff_of_false (by simp) (fun hc => by nlinarith [he0, hA, hc]),
      fun _ => by ring,
      fun h => by simp at h,
      fun h => by simp at h,
      fun hEq => by rw [hEq] at hA; exact absurd hA (by intro hc; nlinarith [he0, hc])⟩
  · dsimp only
    refine ⟨iff_of_false (by simp) hA,
      iff_of_true rfl hB,
      fun h => by simp at h,
      fun _ => rfl,
      fun h => by simp at h,
      fun hEq => by rw [hEq] at hB; exact absurd hB (by intro hc; nlinarith [he0, hc])⟩
  · dsimp only
    refine ⟨iff_of_false (by simp) hA,
      iff_of_false (by simp) hB,
      fun h => by simp at h,
      fun h => by simp at h,
      fun _ => by ring,
      fun _ => rfl⟩

/-- A small concrete plan record for the `updatePrediction` witness. -/
def exPlan : CookPlan :=
  { phases := []
    predictedFinishTime := 0
    confidenceRange := ⟨-3600000, 63660000⟩
    overallConfidence := 90
    recommendedStartTime := 0 }

theorem claim3_witness : PredictionStatusSpec exPlan 150 60 203 :=
  claim3_update_prediction_status exPlan 150 60 203
    (by norm_num) (by norm_num [exPlan])



theorem phaseConf_prep : PHASE_CONFIDENCE PHASE_NAMES.PREP = Confidence.HIGH := rfl

theorem phaseConf_preheat : PHASE_CONFIDENCE PHASE_NAMES.PREHEAT = Confidence.HIGH := rfl

theorem phaseConf_smoke1 : PHASE_CONFIDENCE PHASE_NAMES.SMOKE_1 = Confidence.MEDIUM := rfl

theorem phaseConf_stall : PHASE_CONFIDENCE PHASE_NAMES.STALL = Confidence.LOW := rfl

theorem phaseConf_wrap : PHASE_CONFIDENCE PHASE_NAMES.WRAP_DECISION = Confidence.MEDIUM := rfl

theorem phaseConf_smoke2 : PHASE_CONFIDENCE PHASE_NAMES.SMOKE_2 = Confidence.MEDIUM := rfl

theorem phaseConf_rest : PHASE_CONFIDENCE PHASE_NAMES.REST = Confidence.HIGH := rfl

theorem beq_high_low : (Confidence.HIGH == Confidence.LOW) = false := rfl

theorem beq_medium_low : (Confidence.MEDIUM == Confidence.LOW) = false := rfl

theorem beq_low_low : (Confidence.LOW == Confidence.LOW) = true := rfl

theorem beq_high_medium : (Confidence.HIGH == Confidence.MEDIUM) = false := rfl

theorem beq_medium_medium : (Confidence.MEDIUM == Confidence.MEDIUM) = true := rfl

theorem beq_low_medium : (Confidence.LOW == Confidence.MEDIUM) = false := rfl

set_option maxHeartbeats 2000000 in
/-- C5 counterexample input: reading 220 °F against a 110 °F target at
elapsed 0 gives actualProgress 2 and expectedProgress 0, so the deviation is
2 and the confidence drop is 60 points — more than the 30 the claim allows.
The plan is the one generated for `exInput` (overall confidence 90); the
adjusted confidence comes out 30 < 90 - 30. -/
theorem claim5_counterexample :
    (updatePrediction (generateCookPlan exInput) 220 0 110).adjustedConfidence
      < (generateCookPlan exInput).overallConfidence - 30 := by
  have hsd : calculateStallDuration exInput.meatCut exInput.wrapMethod
      = some ⟨60, 240⟩ := by
    show calculateStallDuration MeatCut.BRISKET WrapMethod.NONE = some ⟨60, 240⟩
    unfold calculateStallDuration
    rw [show hasStall MeatCut.BRISKET = true from rfl]
    norm_num [STALL_CONFIG, jsRound]
  have hmin : (2 : ℤ) ≤ (calculateBaseCookTime exInput.meatCut
      exInput.weightLbs exInput.smokerType exInput.wrapMethod
      exInput.ambientTempF exInput.altitude).min :=
    cookTime_min_ge_two _ _ _ _ _ _ (by norm_num [exInput])
  have hctr : calculateBaseCookTime MeatCut.BRISKET 10 SmokerType.PELLET
      WrapMethod.NONE none none = ⟨567, 783⟩ := by
    norm_num [calculateBaseCookTime, BASE_COOK_TIMES, SMOKER_MULTIPLIERS,
      getEnvironmentalMultiplier, jsRound]
  rw [generateCookPlan_stall exInput ⟨60, 240⟩ hsd hmin]
  simp only [stallPlanModel, exInput, hctr, phaseConf_prep, phaseConf_preheat,
    phaseConf_smoke1, phaseConf_stall, phaseConf_wrap, phaseConf_smoke2,
    phaseConf_rest]
  norm_num [updatePrediction, calculateOverallConfidence,
    SMOKER_MULTIPLIERS, assignOrders, REST_TIME_MINUTES, PREP_TIME_MINUTES,
    PREHEAT_TIME_MINUTES, jsRound, List.filter, beq_high_low, beq_medium_low,
    beq_low_low, beq_high_medium, beq_medium_medium, beq_low_medium]

/-- C5 (amended): the adjusted confidence equals the original overall
confidence reduced by 30 points per unit of absolute deviation between
actual and expected progress, floored at 20 before rounding; it is always at
least 20, and whenever the absolute deviation is at most 1 the reduction is
at most 30 points.  (For deviations above 1 the reduction can exceed 30
points, which is what the counterexample exhibits.) -/
theorem claim5_adjusted_confidence (plan : CookPlan)
    (currentTempF elapsedMinutes targetTempF : ℚ) :
    (updatePrediction plan currentTempF elapsedMinutes
          targetTempF).adjustedConfidence
        = jsRound (max 20 ((plan.overallConfidence : ℚ)
            - |currentTempF / targetTempF
                - elapsedMinutes / (((plan.confidenceRange.latest
                    - plan.recommendedStartTime : ℤ) : ℚ) / 60000)| * 30)) ∧
      20 ≤ (updatePrediction plan currentTempF elapsedMinutes
          targetTempF).adjustedConfidence ∧
      (|currentTempF / targetTempF
          - elapsedMinutes / (((plan.confidenceRange.latest
              - plan.recommendedStartTime : ℤ) : ℚ) / 60000)| ≤ 1 →
        plan.overallConfidence - 30
          ≤ (updatePrediction plan currentTempF elapsedMinutes
              targetTempF).adjustedConfidence) := by
  refine ⟨rfl, ?_, ?_⟩
  · exact le_jsRound_of_le (by push_cast; exact le_max_left _ _)
  · intro hdev
    refine le_jsRound_of_le (le_trans ?_ (le_max_right _ _))
    push_cast at hdev ⊢
    nlinarith [hdev, abs_nonneg (currentTempF / targetTempF
      - elapsedMinutes / (((plan.confidenceRange.latest : ℚ)
          - (plan.recommendedStartTime : ℚ)) / 60000))]



theorem calcOverall_congr {l1 l2 : List PhaseDefinition} (st : SmokerType)
    (h : l1.map (fun p => p.confidence) = l2.map (fun p => p.confidence)) :
    calculateOverallConfidence l1 st = calculateOverallConfidence l2 st := by
  unfold calculateOverallConfidence
  have hlen : ∀ c : Confidence,
      (l1.filter fun p => p.confidence == c).length
        = (l2.filter fun p => p.confidence == c).length := by
    intro c
    have := congrArg (List.countP fun x => x == c) h
    simpa [List.countP_map, ← List.countP_eq_length_filter] using this
  rw [hlen Confidence.LOW, hlen Confidence.MEDIUM]

/-- `eraseNotes` blanks the free-text note of a phase, keeping every other
field. -/
def eraseNotes (p : PhaseDefinition) : PhaseDefinition := { p with notes := "" }

/-- C10: changing only `smokerTempF` changes nothing in the plan except the
free-text notes of the Smoke Phase 1 and Preheat Smoker phases. -/
theorem claim10_smoker_temp_noninterference (input : CookPlanInput) (t : ℚ) :
    ((generateCookPlan { input with smokerTempF := t }).phases.map eraseNotes
        = (generateCookPlan input).phases.map eraseNotes) ∧
      (generateCookPlan { input with smokerTempF := t }).predictedFinishTime
        = (generateCookPlan input).predictedFinishTime ∧
      (generateCookPlan { input with smokerTempF := t }).confidenceRange
        = (generateCookPlan input).confidenceRange ∧
      (generateCookPlan { input with smokerTempF := t }).overallConfidence
        = (generateCookPlan input).overallConfidence ∧
      (generateCookPlan { input with smokerTempF := t }).recommendedStartTime
        = (generateCookPlan input).recommendedStartTime ∧
      ∀ pr ∈ ((generateCookPlan { input with smokerTempF := t }).phases.zip
          (generateCookPlan input).phases),
        pr.1.name ≠ PHASE_NAMES.SMOKE_1 → pr.1.name ≠ PHASE_NAMES.PREHEAT →
          pr.1.notes = pr.2.notes := by
  obtain ⟨mc, w, st, tF, wm, serve, a, alt⟩ := input
  simp only [generateCookPlan]
  cases hsd : calculateStallDuration mc wm <;>
    cases hst : hasStall mc <;>
      simp only [hsd, hst] <;>
        split_ifs <;>
          refine ⟨?_, ?_, ?_, ?_, ?_, ?_⟩ <;>
            first
              | trivial
              | exact calcOverall_congr st (by simp)
              | simp [eraseNotes, assignOrders, PHASE_NAMES.PREP,
                  PHASE_NAMES.PREHEAT, PHASE_NAMES.SMOKE_1, PHASE_NAMES.SMOKE_2,
                  PHASE_NAMES.STALL, PHASE_NAMES.WRAP_DECISION, PHASE_NAMES.REST]


end Smokering
